import Mathlib

/-!
Verification of `squawk_alembic/hook.py`, a pre-commit hook that extracts
revision metadata from alembic migration files, derives SQL through
`alembic upgrade --sql`, checks CONCURRENTLY operations for autocommit
blocks, and lints the generated SQL with squawk.

The development shallowly embeds the Python module: the relevant fragment
of the Python AST is an inductive type, the extractor and checker are
structurally recursive functions over it, external processes are oracles
passed as arguments, and printing / exceptions are explicit values.
-/

namespace SquawkHook

/-- A Python literal as stored in an `ast.Constant` node: the shapes that
`hook.py` ever discriminates on (strings, `None`, numbers, booleans). -/
inductive PyConst where
  | str (s : String)
  | pynone
  | int (n : Int)
  | bool (b : Bool)
deriving DecidableEq, Repr

mutual
/-- The fragment of the Python expression AST inspected by `hook.py`:
constants, names, attribute access, calls (with line numbers, since the
checker reports `node.lineno`), tuples, f-strings (`ast.JoinedStr`) and
binary operations (string concatenation). -/
inductive Expr where
  | constant (c : PyConst)
  | name (id : String)
  | attribute (value : Expr) (attr : String)
  | call (func : Expr) (args : List Expr) (keywords : List Keyword) (lineno : Nat)
  | tuple (elts : List Expr)
  | joinedStr (values : List Expr)
  | binOp (left : Expr) (right : Expr)

/-- An `ast.keyword` node: `arg` is `none` for `**kwargs`. -/
inductive Keyword where
  | mk (arg : Option String) (value : Expr)
end

/-- The value expression of a keyword argument. -/
def Keyword.value : Keyword → Expr
  | .mk _ v => v

/-- The statement fragment visited by `hook.py`: top-level assignments
(for the extractor), expression statements, `with` statements (the item
list holds the `context_expr` of each `withitem`), function definitions,
and a catch-all for statements the hook never looks into. -/
inductive Stmt where
  | assign (targets : List Expr) (value : Expr)
  | exprStmt (value : Expr)
  | withStmt (items : List Expr) (body : List Stmt)
  | funcDef (nm : String) (body : List Stmt)
  | other

/-- The resolved value of the `down_revision` variable in
`extract_revision_info`: the loop variable starts at Python `None` and is
only ever set to `None`, a string, or a tuple of strings. -/
inductive DownRev where
  | pynone
  | str (s : String)
  | tup (elts : List String)
deriving DecidableEq, Repr

/-- Test for `True` exactly when the value is a Python tuple
(`isinstance(down_revision, tuple)`). -/
def DownRev.isTup : DownRev → Bool
  | .tup _ => true
  | _ => false

/-- Python truthiness of the possible `down_revision` values (`None`, the
empty string and the empty tuple are falsy). -/
def DownRev.truthy : DownRev → Bool
  | .pynone => false
  | .str s => !(s == "")
  | .tup l => !l.isEmpty

/-- The `RevisionInfo` record of `hook.py`. -/
structure RevisionInfo where
  revision : String
  down_revision : DownRev
  is_merge : Bool
deriving DecidableEq, Repr

/-- The element filter inside the `ast.Tuple` branch of
`extract_revision_info`: keep exactly the string-literal elements. -/
def filterStrElts : List Expr → List String
  | [] => []
  | .constant (.str s) :: rest => s :: filterStrElts rest
  | _ :: rest => filterStrElts rest

/-- One iteration of the `for node in ast.iter_child_nodes(tree)` loop of
`extract_revision_info`, threading the pair
`(revision, down_revision)` of loop variables. Statements that are not
single-target name assignments are skipped; a `revision` binding is taken
only from a string literal; a `down_revision` binding is taken from a
string literal, a `None` literal, or a tuple literal (filtered to its
string elements); every other shape leaves the loop variables unchanged. -/
def extractStep (acc : Option String × DownRev) (stmt : Stmt) :
    Option String × DownRev :=
  match stmt with
  | .assign [.name nm] value =>
      if nm = "revision" then
        match value with
        | .constant (.str s) => (some s, acc.2)
        | _ => acc
      else if nm = "down_revision" then
        match value with
        | .constant (.str s) => (acc.1, .str s)
        | .constant .pynone => (acc.1, .pynone)
        | .constant _ => acc
        | .tuple elts => (acc.1, .tup (filterStrElts elts))
        | _ => acc
      else acc
  | _ => acc

/-- The body of `extract_revision_info` after a successful parse: run the
assignment loop over the module body; if no string-literal `revision` was
resolved the result is absent, otherwise build the `RevisionInfo` with
`is_merge = isinstance(down_revision, tuple)`. -/
def extractModule (body : List Stmt) : Option RevisionInfo :=
  match body.foldl extractStep (none, DownRev.pynone) with
  | (none, _) => none
  | (some r, down) => some ⟨r, down, down.isTup⟩

/-- Result of `ast.parse` on the decoded text of a file: a syntax error or
a module body. -/
inductive ParseResult where
  | syntaxError
  | parsed (body : List Stmt)

/-- Result of `open(filepath); f.read()` followed by parsing: reading a
file that is not decodable raises `UnicodeDecodeError` (modelled as
`decodeError`), otherwise the text parses or not. -/
inductive ReadResult where
  | decodeError
  | text (p : ParseResult)

/-- Function `extract_revision_info` of `hook.py`, as a function of the file's read/parse
outcome. The `try` block catches only `SyntaxError`, so a decode error
escapes as an exception (`Except.error`); a grammar error returns `None`;
otherwise the module body is scanned. -/
def extract_revision_info : ReadResult → Except Unit (Option RevisionInfo)
  | .decodeError => .error ()
  | .text .syntaxError => .ok none
  | .text (.parsed body) => .ok (extractModule body)

/-- Character-list prefix test, used to model Python's substring operator. -/
def isPrefixChars : List Char → List Char → Bool
  | [], _ => true
  | _ :: _, [] => false
  | a :: as, b :: bs => a == b && isPrefixChars as bs

/-- Character-list substring test. -/
def containsSubChars (sub : List Char) : List Char → Bool
  | [] => sub.isEmpty
  | b :: bs => isPrefixChars sub (b :: bs) || containsSubChars sub bs

/-- Python's `sub in s` on strings. -/
def containsSub (sub s : String) : Bool :=
  containsSubChars sub.data s.data

/-- Python's `str.lower()` (over the ASCII range that matters here). -/
def pyLower (s : String) : String :=
  String.mk (s.data.map Char.toLower)

/-- Function `_extract_string` from `hook.py`: a string literal yields its value; a
call with at least one positional argument whose function is an attribute
named `text` or the bare name `text` recurses into the first argument;
everything else yields nothing. -/
def extract_string : Expr → Option String
  | .constant (.str s) => some s
  | .call f (a :: _) _ _ =>
      match f with
      | .attribute _ attr => if attr = "text" then extract_string a else none
      | .name id => if id = "text" then extract_string a else none
      | _ => none
  | _ => none

/-- Function `_has_concurrent_kwarg` from `hook.py`: some keyword is literally
`postgresql_concurrently=True`. -/
def has_concurrent_kwarg (kws : List Keyword) : Bool :=
  kws.any fun kw =>
    match kw with
    | .mk (some "postgresql_concurrently") (.constant (.bool true)) => true
    | _ => false

/-- The `op.execute` condition of `visit_Call`: the call has a positional
argument, `_extract_string` yields a truthy (non-empty) string containing
`"concurrently"` case-insensitively, and the checker is not inside an
autocommit block. -/
def execWarnCond (args : List Expr) (inAuto : Bool) : Bool :=
  match args with
  | [] => false
  | a :: _ =>
      match extract_string a with
      | none => false
      | some sql =>
          !(sql == "") && containsSub "concurrently" (pyLower sql) && !inAuto

/-- The `any(...)` test of `visit_With`: some item's context expression is
a call whose function is an attribute named `autocommit_block`. -/
def isAutocommitItem : Expr → Bool
  | .call (.attribute _ attr) _ _ _ => attr == "autocommit_block"
  | _ => false

/-- The mutable state of `_AutocommitChecker`: the accumulated warning
lines and the `_in_autocommit` flag. -/
structure CheckerState where
  warnings : List Nat
  inAutocommit : Bool
deriving DecidableEq, Repr

/-- The warning lines `visit_Call` appends for one call node before its
children are visited: both `if` blocks of the `op.`-receiver branch. -/
def callWarnings (f : Expr) (args : List Expr) (kws : List Keyword)
    (lineno : Nat) (inAuto : Bool) : List Nat :=
  match f with
  | .attribute (.name id) attr =>
      if id = "op" then
        (if attr = "execute" && execWarnCond args inAuto then [lineno] else [])
          ++
        (if (attr = "create_index" || attr = "drop_index")
              && (has_concurrent_kwarg kws && !inAuto) then [lineno] else [])
      else []
  | _ => []

mutual
/-- Method `_AutocommitChecker.visit` on an expression node. A call first runs
the `visit_Call` flagging logic and then `generic_visit` over its
children (func, args, keywords, in Python AST field order); every other
node just visits its children. -/
def visitExpr (st : CheckerState) : Expr → CheckerState
  | .constant _ => st
  | .name _ => st
  | .attribute v _ => visitExpr st v
  | .call f args kws lineno =>
      let st1 : CheckerState :=
        { st with warnings :=
            st.warnings ++ callWarnings f args kws lineno st.inAutocommit }
      let st2 := visitExpr st1 f
      let st3 := visitExprList st2 args
      visitKeywordList st3 kws
  | .tuple elts => visitExprList st elts
  | .joinedStr vs => visitExprList st vs
  | .binOp l r => visitExpr (visitExpr st l) r
termination_by structural e => e

/-- Visit a list of expression children in order. -/
def visitExprList (st : CheckerState) : List Expr → CheckerState
  | [] => st
  | e :: rest => visitExprList (visitExpr st e) rest
termination_by structural l => l

/-- Visit the value expressions of a keyword list in order. -/
def visitKeywordList (st : CheckerState) : List Keyword → CheckerState
  | [] => st
  | .mk _ v :: rest => visitKeywordList (visitExpr st v) rest
termination_by structural l => l

/-- Method `_AutocommitChecker.visit` on a statement node. `visit_With` computes
the autocommit test over its items; when it holds, the flag is saved, set
to `true` for the whole node (items and body), and restored afterwards;
otherwise the children are visited with the current flag. All other
statements just visit their children. -/
def visitStmt (st : CheckerState) : Stmt → CheckerState
  | .assign tgts v => visitExpr (visitExprList st tgts) v
  | .exprStmt e => visitExpr st e
  | .withStmt items body =>
      if items.any isAutocommitItem then
        let old := st.inAutocommit
        let st1 := visitStmtList
          (visitExprList { st with inAutocommit := true } items) body
        { st1 with inAutocommit := old }
      else
        visitStmtList (visitExprList st items) body
  | .funcDef _ body => visitStmtList st body
  | .other => st
termination_by structural s2 => s2

/-- Visit a list of statement children in order. -/
def visitStmtList (st : CheckerState) : List Stmt → CheckerState
  | [] => st
  | s :: rest => visitStmtList (visitStmt st s) rest
termination_by structural l => l
end

/-- The body of `check_autocommit_blocks` after a successful parse: run a
fresh `_AutocommitChecker` over the module body and return its warnings. -/
def checkModule (body : List Stmt) : List Nat :=
  (visitStmtList ⟨[], false⟩ body).warnings

/-- Function `check_autocommit_blocks` of `hook.py`, as a function of the file's read/parse
outcome; like the extractor it catches only `SyntaxError`. -/
def check_autocommit_blocks : ReadResult → Except Unit (List Nat)
  | .decodeError => .error ()
  | .text .syntaxError => .ok []
  | .text (.parsed body) => .ok (checkModule body)


/-- Outcome of one `subprocess.run` invocation: the executable may be
absent (`FileNotFoundError`) or run to completion with an exit code,
stdout and stderr. -/
inductive SubprocessOutcome where
  | notFound
  | completed (returncode : Int) (stdout : String) (stderr : String)

/-- The message `generate_sql` prints when `alembic` is not installed. -/
def alembicNotFoundMsg : String :=
  "squawk-alembic: alembic not found. Ensure alembic is installed in your environment."

/-- The message `generate_sql` prints when `alembic upgrade --sql` exits
non-zero, carrying the tool's stderr. -/
def alembicFailedMsg (filepath stderr : String) : String :=
  "squawk-alembic: alembic upgrade --sql failed for " ++ filepath ++ ":\n"
    ++ stderr

/-- A simplified Python `repr` of a string (adequate for identifiers). -/
def pyStrRepr (s : String) : String := "'" ++ s ++ "'"

/-- Python's rendering of a string tuple in an f-string. -/
def pyTupleRepr : List String → String
  | [x] => "(" ++ pyStrRepr x ++ ",)"
  | l => "(" ++ String.intercalate ", " (l.map pyStrRepr) ++ ")"

/-- Rendering of a `down_revision` value inside the f-string
`f"{base}:{info.revision}"`. -/
def DownRev.render : DownRev → String
  | .pynone => "None"
  | .str s => s
  | .tup l => pyTupleRepr l

/-- Lines 98–99 of `hook.py`:
`base = info.down_revision if info.down_revision else "base"` followed by
`target = f"{base}:{info.revision}"`. The conditional expression uses
Python truthiness, so `None`, the empty string and the empty tuple all
select the `"base"` sentinel. (The tuple branches are dead in
`generate_sql`, which returns before this point when `is_merge`.) -/
def rangeToken (info : RevisionInfo) : String :=
  (if info.down_revision.truthy then info.down_revision.render else "base")
    ++ ":" ++ info.revision

/-- Function `generate_sql` from `hook.py`. The external command is an oracle from
the requested `upgrade` target to a subprocess outcome; the function
returns the Python return value (`None` or the generated SQL text)
together with the list of lines it printed to stderr. Exceptions other
than the caught `FileNotFoundError` propagate (`Except.error`), which
happens exactly when the extractor raises. The `DATABASE_URL` default
injected into the subprocess environment is outside the model. -/
def generate_sql (filepath : String) (file : ReadResult)
    (alembic : String → SubprocessOutcome) :
    Except Unit (Option String × List String) :=
  match extract_revision_info file with
  | .error e => .error e
  | .ok none => .ok (none, [])
  | .ok (some info) =>
      if info.is_merge then .ok (none, [])
      else
        match alembic (rangeToken info) with
        | .notFound => .ok (none, [alembicNotFoundMsg])
        | .completed rc out err =>
            if rc ≠ 0 then .ok (none, [alembicFailedMsg filepath err])
            else .ok (some out, [])

/-- One candidate file as `main` sees it: its path, whether
`Path(filepath).relative_to(migrations_path)` succeeds, its read/parse
outcome, and the behavior of the two external tools for it. -/
structure FileSpec where
  name : String
  inMigrations : Bool
  content : ReadResult
  alembic : String → SubprocessOutcome
  squawk : SubprocessOutcome

/-- The warning line `main` prints for an autocommit finding. -/
def autocommitWarningMsg (filepath : String) (lineno : Nat) : String :=
  filepath ++ ":" ++ toString lineno
    ++ ": CONCURRENTLY operation outside autocommit_block()"

/-- The message `main` prints when `squawk` is not installed. -/
def squawkNotFoundMsg : String :=
  "squawk-alembic: squawk not found. Install with: pip install squawk-cli"

/-- The message `main` prints when `find_migrations_path` fails. -/
def migrationsNotFoundMsg : String :=
  "squawk-alembic: could not find alembic.ini or parse script_location"

/-- The observable result of a run of `main`: the returned exit code and
the lines printed to stdout and stderr, in order. -/
structure RunResult where
  exitCode : Int
  stdoutLines : List String
  stderrLines : List String
deriving DecidableEq, Repr

/-- The `for filepath in files` loop of `main`, threading `exit_code` and
the accumulated output. Files outside the migrations path are skipped.
For each remaining file: the autocommit warnings are printed (each one
setting `exit_code = 1`); then `generate_sql` runs and its stderr is
relayed; a falsy result (`None` or the empty string) skips to the next
file; otherwise `squawk` runs on the SQL — a missing `squawk` returns 1
immediately, findings (non-zero exit) relay the tool's non-empty stdout
and stderr and set `exit_code = 1`. The temp-file plumbing (and its
`tmp_path`-to-`filepath` substitution in relayed output) is outside the
model. An uncaught exception from the checker or extractor propagates. -/
def mainLoop : List FileSpec → Int → List String → List String →
    Except Unit RunResult
  | [], code, outs, errs => .ok ⟨code, outs, errs⟩
  | f :: rest, code, outs, errs =>
      if f.inMigrations then
        match check_autocommit_blocks f.content with
        | .error e => .error e
        | .ok warns =>
            let outs := outs ++ warns.map (autocommitWarningMsg f.name)
            let code := if warns.isEmpty then code else 1
            match generate_sql f.name f.content f.alembic with
            | .error e => .error e
            | .ok (sql?, msgs) =>
                let errs := errs ++ msgs
                match sql? with
                | none => mainLoop rest code outs errs
                | some sql =>
                    if sql = "" then mainLoop rest code outs errs
                    else
                      match f.squawk with
                      | .notFound =>
                          .ok ⟨1, outs, errs ++ [squawkNotFoundMsg]⟩
                      | .completed rc sout serr =>
                          if rc ≠ 0 then
                            mainLoop rest 1
                              (outs ++ if sout = "" then [] else [sout])
                              (errs ++ if serr = "" then [] else [serr])
                          else mainLoop rest code outs errs
      else mainLoop rest code outs errs

/-- Function `main` from `hook.py`: no arguments exit 0 at once; a missing or
unparseable `alembic.ini` (modelled by the `migrationsFound` flag, since
config-file discovery is filesystem glue) prints a message and exits 0;
otherwise the file loop runs with `exit_code = 0`. -/
def mainRun (migrationsFound : Bool) (files : List FileSpec) :
    Except Unit RunResult :=
  if files.isEmpty then .ok ⟨0, [], []⟩
  else if migrationsFound then mainLoop files 0 [] []
  else .ok ⟨0, [], [migrationsNotFoundMsg]⟩

/-- The base of the upgrade range as claim C1 words it: the predecessor
identifier when `down_revision` is a string, the sentinel `"base"`
otherwise. (Spec-side definition, for comparison with `rangeToken`.) -/
def specBaseClaim : DownRev → String
  | .str s => s
  | _ => "base"

/-- The base of the upgrade range as the code computes it: the
predecessor identifier when `down_revision` is a non-empty string, the
sentinel `"base"` when it is absent or empty. -/
def specBaseAmended : DownRev → String
  | .str s => if s = "" then "base" else s
  | _ => "base"

/-- The string value a statement contributes to `revision` when it is an
assignment shape the extractor accepts: a single-target assignment
`revision = <string literal>`. -/
def acceptedRevValue : Stmt → Option String
  | .assign [.name nm] (.constant (.str s)) =>
      if nm = "revision" then some s else none
  | _ => none

/-- The value a statement contributes to `down_revision` when it is an
assignment shape the extractor accepts: a single-target assignment
`down_revision = <string | None | tuple literal>` (the tuple filtered to
its string elements). -/
def acceptedDownValue : Stmt → Option DownRev
  | .assign [.name nm] v =>
      if nm = "down_revision" then
        match v with
        | .constant (.str s) => some (.str s)
        | .constant .pynone => some .pynone
        | .constant _ => none
        | .tuple elts => some (.tup (filterStrElts elts))
        | _ => none
      else none
  | _ => none

/-- The value of the last top-level single-target assignment to
`revision`, of any shape. -/
def lastRevAssignValue (body : List Stmt) : Option Expr :=
  (body.filterMap fun s =>
    match s with
    | .assign [.name nm] v =>
        if nm = "revision" then some v else (none : Option Expr)
    | _ => none).getLast?

/-- The resolved `revision` under the semantics claim C9 states
("standard sequential overwrite": every assignment to the name
overwrites it, and the extractor then accepts the final value only if it
is a string literal). Spec-side definition, for comparison. -/
def specOverwriteRevision (body : List Stmt) : Option String :=
  match lastRevAssignValue body with
  | some (.constant (.str s)) => some s
  | _ => none

/-- Overwrite `old` with `new` when `new` carries a value. -/
def overrideWith (old : Option String) (new : Option String) : Option String :=
  match new with
  | some v => some v
  | none => old

/-- Overwrite `old` with `new` when `new` carries a value. -/
def overrideDown (old : DownRev) (new : Option DownRev) : DownRev :=
  match new with
  | some v => v
  | none => old

/-- Expressions that are leaves for the checker: bare names and
constants. -/
def atomExpr : Expr → Bool
  | .name _ => true
  | .constant _ => true
  | _ => false

/-- The argument shapes claim C8 enumerates: a variable reference, an
interpolated/formatted string (over atomic pieces), a concatenation of
atomic non-extractable pieces, or a non-string literal. -/
def nonExtractableArg : Expr → Bool
  | .name _ => true
  | .joinedStr vs => vs.all atomExpr
  | .binOp l r => atomExpr l && atomExpr r
  | .constant (.str _) => false
  | .constant _ => true
  | _ => false

/-- Call functions that are not an attribute access on the bare name
`op`: a bare name, or an attribute whose receiver is a different bare
name. -/
def funcNotOp : Expr → Bool
  | .name _ => true
  | .attribute (.name r) _ => !(r == "op")
  | _ => false

/-- A lexical wrapper a statement can be nested under: a `with` on a
plain context, a `with` on an `autocommit_block()` context, or a
function definition. -/
inductive Wrapper where
  | plainWith
  | autoWith
  | fnDef
deriving DecidableEq, Repr

/-- The context expression `op.get_context().autocommit_block()`. -/
def autoItem : Expr :=
  .call (.attribute (.call (.attribute (.name "op") "get_context") [] [] 0)
    "autocommit_block") [] [] 0

/-- Wrap a statement in one lexical layer. -/
def wrapStmt : Wrapper → Stmt → Stmt
  | .plainWith, s => .withStmt [.name "ctx"] [s]
  | .autoWith, s => .withStmt [autoItem] [s]
  | .fnDef, s => .funcDef "upgrade" [s]

/-- Nest a statement under a list of lexical layers, outermost first. -/
def nestStmt (ws : List Wrapper) (s : Stmt) : Stmt :=
  ws.foldr wrapStmt s

/-- Whether some layer is an autocommit block. -/
def hasAuto (ws : List Wrapper) : Bool :=
  ws.any fun w => w == .autoWith

/-- The shapes of an argument that "statically resolves" to a string for
`_extract_string`: a string literal, possibly wrapped in one-argument
`text(...)` / `<name>.text(...)` calls. -/
inductive ResolvesTo : Expr → String → Prop
  | const (s : String) : ResolvesTo (.constant (.str s)) s
  | textName (a : Expr) (s : String) (n : Nat) (h : ResolvesTo a s) :
      ResolvesTo (.call (.name "text") [a] [] n) s
  | textAttr (r : String) (a : Expr) (s : String) (n : Nat)
      (h : ResolvesTo a s) :
      ResolvesTo (.call (.attribute (.name r) "text") [a] [] n) s

mutual
/-- Visiting an expression never changes the `_in_autocommit` flag. -/
theorem visitExpr_flag (st : CheckerState) (e : Expr) :
    (visitExpr st e).inAutocommit = st.inAutocommit := by
  match e with
  | .constant c => simp [visitExpr]
  | .name id => simp [visitExpr]
  | .attribute v a => simp [visitExpr, visitExpr_flag st v]
  | .call f args kws n =>
      simp only [visitExpr]
      rw [visitKeywordList_flag, visitExprList_flag, visitExpr_flag]
  | .tuple elts => simp only [visitExpr]; rw [visitExprList_flag]
  | .joinedStr vs => simp only [visitExpr]; rw [visitExprList_flag]
  | .binOp l r =>
      simp only [visitExpr]
      rw [visitExpr_flag, visitExpr_flag]

/-- Visiting a list of expressions never changes the flag. -/
theorem visitExprList_flag (st : CheckerState) (l : List Expr) :
    (visitExprList st l).inAutocommit = st.inAutocommit := by
  match l with
  | [] => simp [visitExprList]
  | e :: rest =>
      simp only [visitExprList]
      rw [visitExprList_flag, visitExpr_flag]

/-- Visiting a keyword list never changes the flag. -/
theorem visitKeywordList_flag (st : CheckerState) (l : List Keyword) :
    (visitKeywordList st l).inAutocommit = st.inAutocommit := by
  match l with
  | [] => simp [visitKeywordList]
  | .mk a v :: rest =>
      simp only [visitKeywordList]
      rw [visitKeywordList_flag, visitExpr_flag]

/-- Visiting a statement never changes the flag: in particular the flag
set on entering an `autocommit_block` `with` is restored to its prior
value on exit. -/
theorem visitStmt_flag (st : CheckerState) (s : Stmt) :
    (visitStmt st s).inAutocommit = st.inAutocommit := by
  match s with
  | .assign tgts v =>
      simp only [visitStmt]
      rw [visitExpr_flag, visitExprList_flag]
  | .exprStmt e => simp only [visitStmt]; rw [visitExpr_flag]
  | .withStmt items body =>
      simp only [visitStmt]
      by_cases h : items.any isAutocommitItem = true
      · simp [h]
      · simp only [h, Bool.false_eq_true, if_false]
        rw [visitStmtList_flag, visitExprList_flag]
  | .funcDef nm body => simp only [visitStmt]; rw [visitStmtList_flag]
  | .other => simp [visitStmt]

/-- Visiting a list of statements never changes the flag. -/
theorem visitStmtList_flag (st : CheckerState) (l : List Stmt) :
    (visitStmtList st l).inAutocommit = st.inAutocommit := by
  match l with
  | [] => simp [visitStmtList]
  | s :: rest =>
      simp only [visitStmtList]
      rw [visitStmtList_flag, visitStmt_flag]
end

/-- Overwrite `old` with `new` when `new` carries a value (generic). -/
def overrideOpt {α : Type} (old : Option α) (new : Option α) : Option α :=
  match new with
  | some v => some v
  | none => old

theorem extractModule_is_merge (body : List Stmt) (info : RevisionInfo)
    (h : extractModule body = some info) :
    info.is_merge = info.down_revision.isTup := by
  unfold extractModule at h
  split at h
  · exact absurd h (by simp)
  · simp only [Option.some.injEq] at h
    rw [← h]

theorem extractStep_fst (acc : Option String × DownRev) (s : Stmt) :
    (extractStep acc s).1 = overrideOpt acc.1 (acceptedRevValue s) := by
  match s with
  | .exprStmt e => rfl
  | .withStmt a b => rfl
  | .funcDef a b => rfl
  | .other => rfl
  | .assign [] v => rfl
  | .assign (.name a :: u :: rest) v => rfl
  | .assign (.constant a :: u :: rest) v => rfl
  | .assign (.attribute a b :: u :: rest) v => rfl
  | .assign (.call a b c d :: u :: rest) v => rfl
  | .assign (.tuple a :: u :: rest) v => rfl
  | .assign (.joinedStr a :: u :: rest) v => rfl
  | .assign (.binOp a b :: u :: rest) v => rfl
  | .assign [.constant c] v => rfl
  | .assign [.attribute a b] v => rfl
  | .assign [.call a b c d] v => rfl
  | .assign [.tuple a] v => rfl
  | .assign [.joinedStr a] v => rfl
  | .assign [.binOp a b] v => rfl
  | .assign [.name nm] v =>
      by_cases h1 : nm = "revision"
      · subst h1
        match v with
        | .constant (.str str) =>
            simp [extractStep, acceptedRevValue, overrideOpt]
        | .constant .pynone =>
            simp [extractStep, acceptedRevValue, overrideOpt]
        | .constant (.int k) =>
            simp [extractStep, acceptedRevValue, overrideOpt]
        | .constant (.bool b) =>
            simp [extractStep, acceptedRevValue, overrideOpt]
        | .name a => simp [extractStep, acceptedRevValue, overrideOpt]
        | .attribute a b => simp [extractStep, acceptedRevValue, overrideOpt]
        | .call a b c d => simp [extractStep, acceptedRevValue, overrideOpt]
        | .tuple a => simp [extractStep, acceptedRevValue, overrideOpt]
        | .joinedStr a => simp [extractStep, acceptedRevValue, overrideOpt]
        | .binOp a b => simp [extractStep, acceptedRevValue, overrideOpt]
      · by_cases h2 : nm = "down_revision"
        · subst h2
          match v with
          | .constant (.str str) =>
              simp +decide [extractStep, acceptedRevValue, overrideOpt]
          | .constant .pynone =>
              simp +decide [extractStep, acceptedRevValue, overrideOpt]
          | .constant (.int k) =>
              simp +decide [extractStep, acceptedRevValue, overrideOpt]
          | .constant (.bool b) =>
              simp +decide [extractStep, acceptedRevValue, overrideOpt]
          | .name a => simp +decide [extractStep, acceptedRevValue, overrideOpt]
          | .attribute a b =>
              simp +decide [extractStep, acceptedRevValue, overrideOpt]
          | .call a b c d =>
              simp +decide [extractStep, acceptedRevValue, overrideOpt]
          | .tuple a => simp +decide [extractStep, acceptedRevValue, overrideOpt]
          | .joinedStr a =>
              simp +decide [extractStep, acceptedRevValue, overrideOpt]
          | .binOp a b =>
              simp +decide [extractStep, acceptedRevValue, overrideOpt]
        · match v with
          | .constant (.str str) =>
              simp [extractStep, acceptedRevValue, overrideOpt, h1, h2]
          | .constant .pynone =>
              simp [extractStep, acceptedRevValue, overrideOpt, h1, h2]
          | .constant (.int k) =>
              simp [extractStep, acceptedRevValue, overrideOpt, h1, h2]
          | .constant (.bool b) =>
              simp [extractStep, acceptedRevValue, overrideOpt, h1, h2]
          | .name a => simp [extractStep, acceptedRevValue, overrideOpt, h1, h2]
          | .attribute a b =>
              simp [extractStep, acceptedRevValue, overrideOpt, h1, h2]
          | .call a b c d =>
              simp [extractStep, acceptedRevValue, overrideOpt, h1, h2]
          | .tuple a => simp [extractStep, acceptedRevValue, overrideOpt, h1, h2]
          | .joinedStr a =>
              simp [extractStep, acceptedRevValue, overrideOpt, h1, h2]
          | .binOp a b =>
              simp [extractStep, acceptedRevValue, overrideOpt, h1, h2]

theorem extractStep_snd (acc : Option String × DownRev) (s : Stmt) :
    (extractStep acc s).2 = overrideDown acc.2 (acceptedDownValue s) := by
  match s with
  | .exprStmt e => rfl
  | .withStmt a b => rfl
  | .funcDef a b => rfl
  | .other => rfl
  | .assign [] v => rfl
  | .assign (.name a :: u :: rest) v => rfl
  | .assign (.constant a :: u :: rest) v => rfl
  | .assign (.attribute a b :: u :: rest) v => rfl
  | .assign (.call a b c d :: u :: rest) v => rfl
  | .assign (.tuple a :: u :: rest) v => rfl
  | .assign (.joinedStr a :: u :: rest) v => rfl
  | .assign (.binOp a b :: u :: rest) v => rfl
  | .assign [.constant c] v => rfl
  | .assign [.attribute a b] v => rfl
  | .assign [.call a b c d] v => rfl
  | .assign [.tuple a] v => rfl
  | .assign [.joinedStr a] v => rfl
  | .assign [.binOp a b] v => rfl
  | .assign [.name nm] v =>
      by_cases h1 : nm = "revision"
      · subst h1
        match v with
        | .constant (.str str) =>
            simp +decide [extractStep, acceptedDownValue, overrideDown]
        | .constant .pynone =>
            simp +decide [extractStep, acceptedDownValue, overrideDown]
        | .constant (.int k) =>
            simp +decide [extractStep, acceptedDownValue, overrideDown]
        | .constant (.bool b) =>
            simp +decide [extractStep, acceptedDownValue, overrideDown]
        | .name a => simp +decide [extractStep, acceptedDownValue, overrideDown]
        | .attribute a b =>
            simp +decide [extractStep, acceptedDownValue, overrideDown]
        | .call a b c d =>
            simp +decide [extractStep, acceptedDownValue, overrideDown]
        | .tuple a => simp +decide [extractStep, acceptedDownValue, overrideDown]
        | .joinedStr a =>
            simp +decide [extractStep, acceptedDownValue, overrideDown]
        | .binOp a b =>
            simp +decide [extractStep, acceptedDownValue, overrideDown]
      · by_cases h2 : nm = "down_revision"
        · subst h2
          match v with
          | .constant (.str str) =>
              simp [extractStep, acceptedDownValue, overrideDown]
          | .constant .pynone =>
              simp [extractStep, acceptedDownValue, overrideDown]
          | .constant (.int k) =>
              simp [extractStep, acceptedDownValue, overrideDown]
          | .constant (.bool b) =>
              simp [extractStep, acceptedDownValue, overrideDown]
          | .name a => simp [extractStep, acceptedDownValue, overrideDown]
          | .attribute a b =>
              simp [extractStep, acceptedDownValue, overrideDown]
          | .call a b c d =>
              simp [extractStep, acceptedDownValue, overrideDown]
          | .tuple a => simp [extractStep, acceptedDownValue, overrideDown]
          | .joinedStr a =>
              simp [extractStep, acceptedDownValue, overrideDown]
          | .binOp a b =>
              simp [extractStep, acceptedDownValue, overrideDown]
        · match v with
          | .constant (.str str) =>
              simp [extractStep, acceptedDownValue, overrideDown, h1, h2]
          | .constant .pynone =>
              simp [extractStep, acceptedDownValue, overrideDown, h1, h2]
          | .constant (.int k) =>
              simp [extractStep, acceptedDownValue, overrideDown, h1, h2]
          | .constant (.bool b) =>
              simp [extractStep, acceptedDownValue, overrideDown, h1, h2]
          | .name a => simp [extractStep, acceptedDownValue, overrideDown, h1, h2]
          | .attribute a b =>
              simp [extractStep, acceptedDownValue, overrideDown, h1, h2]
          | .call a b c d =>
              simp [extractStep, acceptedDownValue, overrideDown, h1, h2]
          | .tuple a => simp [extractStep, acceptedDownValue, overrideDown, h1, h2]
          | .joinedStr a =>
              simp [extractStep, acceptedDownValue, overrideDown, h1, h2]
          | .binOp a b =>
              simp [extractStep, acceptedDownValue, overrideDown, h1, h2]

theorem getLast?_cons_overrideOpt {α : Type} (a : α) (l : List α) :
    (a :: l).getLast? = overrideOpt (some a) l.getLast? := by
  induction l generalizing a with
  | nil => rfl
  | cons b bs ih =>
      rw [show (a :: b :: bs).getLast? = (b :: bs).getLast? from
        List.getLast?_cons_cons]
      rw [ih b]
      rcases bs.getLast? with _ | w <;> rfl

theorem foldl_extract_fst (body : List Stmt) :
    ∀ acc : Option String × DownRev,
      (body.foldl extractStep acc).1
        = overrideOpt acc.1 ((body.filterMap acceptedRevValue).getLast?) := by
  induction body with
  | nil => intro acc; rfl
  | cons s rest ih =>
      intro acc
      rw [List.foldl_cons, ih]
      rcases h : acceptedRevValue s with _ | v
      · rw [List.filterMap_cons_none h, extractStep_fst, h]
        rfl
      · rw [List.filterMap_cons_some h, extractStep_fst, h,
          getLast?_cons_overrideOpt]
        rcases (rest.filterMap acceptedRevValue).getLast? with _ | w <;> rfl

theorem foldl_extract_snd (body : List Stmt) :
    ∀ acc : Option String × DownRev,
      (body.foldl extractStep acc).2
        = overrideDown acc.2 ((body.filterMap acceptedDownValue).getLast?) := by
  induction body with
  | nil => intro acc; rfl
  | cons s rest ih =>
      intro acc
      rw [List.foldl_cons, ih]
      rcases h : acceptedDownValue s with _ | v
      · rw [List.filterMap_cons_none h, extractStep_snd, h]
        rfl
      · rw [List.filterMap_cons_some h, extractStep_snd, h,
          getLast?_cons_overrideOpt]
        rcases (rest.filterMap acceptedDownValue).getLast? with _ | w <;> rfl

theorem callWarnings_notOp (f : Expr) (args : List Expr) (kws : List Keyword)
    (n : Nat) (b : Bool) (h : funcNotOp f = true) :
    callWarnings f args kws n b = [] := by
  match f with
  | .name id => rfl
  | .attribute (.name r) a =>
      have hr : ¬ r = "op" := by
        simpa [funcNotOp] using h
      simp [callWarnings, hr]

theorem callWarnings_textAttr (r : String) (args : List Expr)
    (kws : List Keyword) (n : Nat) (b : Bool) :
    callWarnings (.attribute (.name r) "text") args kws n b = [] := by
  by_cases h : r = "op" <;> simp +decide [callWarnings, h]

theorem resolvesTo_extract {a : Expr} {s : String} (h : ResolvesTo a s) :
    extract_string a = some s := by
  induction h with
  | const s => rfl
  | textName a s n h ih => simpa [extract_string] using ih
  | textAttr r a s n h ih => simpa [extract_string] using ih

theorem visitExpr_atom (e : Expr) (h : atomExpr e = true) (st : CheckerState) :
    visitExpr st e = st := by
  match e with
  | .name id => rfl
  | .constant c => rfl

theorem visitExprList_atoms (l : List Expr) (h : l.all atomExpr = true)
    (st : CheckerState) : visitExprList st l = st := by
  induction l generalizing st with
  | nil => rfl
  | cons e rest ih =>
      simp only [List.all_cons, Bool.and_eq_true] at h
      rw [visitExprList, visitExpr_atom e h.1, ih h.2]

theorem visitKeywordList_atoms (l : List Keyword)
    (h : (l.all fun kw => atomExpr kw.value) = true)
    (st : CheckerState) : visitKeywordList st l = st := by
  induction l generalizing st with
  | nil => rfl
  | cons kw rest ih =>
      simp only [List.all_cons, Bool.and_eq_true] at h
      match kw with
      | .mk a v =>
          rw [visitKeywordList, visitExpr_atom v h.1, ih h.2]

theorem resolvesTo_visit {a : Expr} {s : String} (h : ResolvesTo a s)
    (st : CheckerState) : visitExpr st a = st := by
  induction h generalizing st with
  | const s => rfl
  | textName a s n h ih =>
      show visitExpr st (.call (.name "text") [a] [] n) = st
      rw [visitExpr]
      simp only [callWarnings, List.append_nil]
      rw [visitExpr]
      rw [visitExprList, ih, visitExprList, visitKeywordList]
  | textAttr r a s n h ih =>
      show visitExpr st (.call (.attribute (.name r) "text") [a] [] n) = st
      rw [visitExpr]
      rw [callWarnings_textAttr, List.append_nil]
      rw [visitExpr, visitExpr]
      rw [visitExprList, ih, visitExprList, visitKeywordList]

theorem extract_string_nonExtractable (e : Expr)
    (h : nonExtractableArg e = true) : extract_string e = none := by
  match e with
  | .name id => rfl
  | .joinedStr vs => rfl
  | .binOp l r => rfl
  | .constant .pynone => rfl
  | .constant (.int k) => rfl
  | .constant (.bool b) => rfl
  | .constant (.str s) => exact absurd h (by simp [nonExtractableArg])

theorem visitExpr_nonExtractable (e : Expr) (h : nonExtractableArg e = true)
    (st : CheckerState) : visitExpr st e = st := by
  match e with
  | .name id => rfl
  | .constant c => rfl
  | .joinedStr vs =>
      rw [visitExpr]
      exact visitExprList_atoms vs (by simpa [nonExtractableArg] using h) st
  | .binOp l r =>
      simp only [nonExtractableArg, Bool.and_eq_true] at h
      rw [visitExpr, visitExpr_atom l h.1, visitExpr_atom r h.2]

theorem visitExpr_opExecute (arg : Expr) (s : String) (n : Nat)
    (st : CheckerState) (hres : ResolvesTo arg s)
    (hconc : containsSub "concurrently" (pyLower s) = true) :
    visitExpr st (.call (.attribute (.name "op") "execute") [arg] [] n)
      = { st with warnings :=
            st.warnings ++ (if st.inAutocommit then [] else [n]) } := by
  have hx : extract_string arg = some s := resolvesTo_extract hres
  have hs : ¬ s = "" := by
    intro he
    rw [he] at hconc
    exact absurd hconc (by decide)
  have hcond : execWarnCond [arg] st.inAutocommit = !st.inAutocommit := by
    rw [execWarnCond, hx]
    simp [hs, hconc]
  have hcw : callWarnings (.attribute (.name "op") "execute") [arg] [] n
      st.inAutocommit = if st.inAutocommit then [] else [n] := by
    rw [callWarnings]
    simp only [hcond]
    cases st.inAutocommit <;> simp +decide
  rw [visitExpr, hcw]
  rw [visitExpr, visitExpr]
  rw [visitExprList, resolvesTo_visit hres, visitExprList, visitKeywordList]

theorem visitStmt_opExecuteStmt (arg : Expr) (s : String) (n : Nat)
    (st : CheckerState) (hres : ResolvesTo arg s)
    (hconc : containsSub "concurrently" (pyLower s) = true) :
    visitStmt st (.exprStmt (.call (.attribute (.name "op") "execute")
        [arg] [] n))
      = { st with warnings :=
            st.warnings ++ (if st.inAutocommit then [] else [n]) } := by
  rw [visitStmt]
  exact visitExpr_opExecute arg s n st hres hconc

theorem visitExpr_autoItem (st : CheckerState) :
    visitExpr st autoItem = st := by
  obtain ⟨w, b⟩ := st
  simp [autoItem, visitExpr, visitExprList, visitKeywordList, callWarnings]

theorem visitStmt_nest_id (inner : Stmt)
    (hinner : ∀ st, visitStmt st inner = st) :
    ∀ (ws : List Wrapper) (st : CheckerState),
      visitStmt st (nestStmt ws inner) = st := by
  intro ws
  induction ws with
  | nil => intro st; exact hinner st
  | cons w rest ih =>
      intro st
      show visitStmt st (wrapStmt w (nestStmt rest inner)) = st
      match w with
      | .plainWith =>
          rw [wrapStmt, visitStmt]
          rw [show ([Expr.name "ctx"].any isAutocommitItem) = false from rfl]
          simp only [Bool.false_eq_true, if_false]
          rw [visitExprList, visitExpr, visitExprList]
          rw [visitStmtList, ih st, visitStmtList]
      | .autoWith =>
          rw [wrapStmt, visitStmt]
          rw [show ([autoItem].any isAutocommitItem) = true from rfl]
          simp only [if_true]
          rw [visitExprList, visitExpr_autoItem, visitExprList]
          rw [visitStmtList, ih { st with inAutocommit := true },
            visitStmtList]
      | .fnDef =>
          rw [wrapStmt, visitStmt]
          rw [visitStmtList, ih st, visitStmtList]

theorem visitStmt_nest_cond (inner : Stmt) (n : Nat)
    (hinner : ∀ st, visitStmt st inner
        = { st with warnings :=
              st.warnings ++ (if st.inAutocommit then [] else [n]) }) :
    ∀ (ws : List Wrapper) (st : CheckerState),
      visitStmt st (nestStmt ws inner)
        = { st with warnings :=
              st.warnings
                ++ (if st.inAutocommit || hasAuto ws then [] else [n]) } := by
  intro ws
  induction ws with
  | nil =>
      intro st
      rw [show nestStmt [] inner = inner from rfl, hinner st]
      simp [hasAuto]
  | cons w rest ih =>
      intro st
      show visitStmt st (wrapStmt w (nestStmt rest inner)) = _
      match w with
      | .plainWith =>
          rw [wrapStmt, visitStmt]
          rw [show ([Expr.name "ctx"].any isAutocommitItem) = false from rfl]
          simp only [Bool.false_eq_true, if_false]
          rw [visitExprList, visitExpr, visitExprList]
          rw [visitStmtList, ih st, visitStmtList]
          simp [hasAuto]
      | .autoWith =>
          rw [wrapStmt, visitStmt]
          rw [show ([autoItem].any isAutocommitItem) = true from rfl]
          simp only [if_true]
          rw [visitExprList, visitExpr_autoItem, visitExprList]
          rw [visitStmtList, ih { st with inAutocommit := true },
            visitStmtList]
          simp [hasAuto]
      | .fnDef =>
          rw [wrapStmt, visitStmt]
          rw [visitStmtList, ih st, visitStmtList]
          simp [hasAuto]

theorem alembicFailedMsg_ne_notFound (filepath stderr : String) :
    alembicFailedMsg filepath stderr ≠ alembicNotFoundMsg := by
  intro h
  have hd : (alembicFailedMsg filepath stderr).data
      = alembicNotFoundMsg.data := by rw [h]
  rw [alembicFailedMsg] at hd
  simp only [String.data_append] at hd
  rw [List.append_assoc, List.append_assoc] at hd
  have h24 : (("squawk-alembic: alembic upgrade --sql failed for ").data
      ++ (filepath.data ++ ((":\n").data ++ stderr.data)))[24]?
        = some 'u' := by
    rw [List.getElem?_append_left (by decide)]
    decide
  rw [hd] at h24
  exact absurd h24 (by decide)

/-- A standard migration module body:
`revision = 'abc123'; down_revision = 'def456'`. -/
def bodyStd : List Stmt :=
  [.assign [.name "revision"] (.constant (.str "abc123")),
   .assign [.name "down_revision"] (.constant (.str "def456"))]

/-- Module body `revision = 'r1'; down_revision = ''` — the predecessor is a string,
but a falsy one. -/
def bodyEmptyDown : List Stmt :=
  [.assign [.name "revision"] (.constant (.str "r1")),
   .assign [.name "down_revision"] (.constant (.str ""))]

/-- Module body `revision = 'm'; down_revision = ('a', 'b')` — a merge migration. -/
def bodyMerge : List Stmt :=
  [.assign [.name "revision"] (.constant (.str "m")),
   .assign [.name "down_revision"]
     (.tuple [.constant (.str "a"), .constant (.str "b")])]

/-- Module body `revision = 'r'; down_revision = ('a',)` — a one-element tuple. -/
def bodyOneTuple : List Stmt :=
  [.assign [.name "revision"] (.constant (.str "r")),
   .assign [.name "down_revision"] (.tuple [.constant (.str "a")])]

/-- Module body `revision = 'a'` followed by `revision = 5` — the later assignment has
a shape the extractor does not accept. -/
def bodyRevTwice : List Stmt :=
  [.assign [.name "revision"] (.constant (.str "a")),
   .assign [.name "revision"] (.constant (.int 5))]

/-- C1. The claim says the range token is always
`<predecessor>:<revision>` (`base:<revision>` when the predecessor is
absent), and in particular that a string `down_revision` always appears
as the base. The code tests Python truthiness, so the empty-string
predecessor of `bodyEmptyDown` is extracted as the string `""` yet the
token is `"base:r1"`, not the `":r1"` the claim's base computation gives. -/
theorem claim_C1_counterexample :
    extractModule bodyEmptyDown = some ⟨"r1", .str "", false⟩
    ∧ rangeToken ⟨"r1", .str "", false⟩ = "base:r1"
    ∧ specBaseClaim (.str "") ++ ":" ++ "r1" = ":r1"
    ∧ ("base:r1" : String) ≠ ":r1" := by
  refine ⟨by decide, by decide, by decide, by decide⟩

/-- C1 (amended). For every file whose extraction yields a non-merge
`RevisionInfo`, the upgrade range token of lines 98–99 equals the
predecessor joined by `":"` with the revision when the predecessor is a
non-empty string, and `"base"` joined with the revision when the
predecessor is absent or the empty string. -/
theorem claim_C1_range_token (body : List Stmt) (info : RevisionInfo)
    (h : extractModule body = some info) (hm : info.is_merge = false) :
    rangeToken info = specBaseAmended info.down_revision ++ ":"
      ++ info.revision := by
  have ht := extractModule_is_merge body info h
  rw [hm] at ht
  rcases hdr : info.down_revision with _ | s | l
  · simp [rangeToken, hdr, DownRev.truthy, DownRev.render, specBaseAmended]
  · by_cases hs : s = "" <;>
      simp [rangeToken, hdr, DownRev.truthy, DownRev.render,
        specBaseAmended, hs]
  · rw [hdr] at ht
    exact absurd ht.symm (by simp [DownRev.isTup])

/-- C1 witness: the amended statement at the standard migration. -/
theorem claim_C1_range_token_witness :
    extractModule bodyStd = some ⟨"abc123", .str "def456", false⟩
    ∧ (⟨"abc123", .str "def456", false⟩ : RevisionInfo).is_merge = false
    ∧ rangeToken ⟨"abc123", .str "def456", false⟩
        = specBaseAmended (.str "def456") ++ ":" ++ "abc123" :=
  ⟨by decide, by decide,
    claim_C1_range_token bodyStd ⟨"abc123", .str "def456", false⟩
      (by decide) (by decide)⟩

/-- C2. A file whose `down_revision` is a tuple of two or more string
literals is extracted with `is_merge = true`, and `generate_sql` returns
the skip outcome (`None`, no message) identically for every possible
generator behavior — i.e. without invoking the generator. -/
theorem claim_C2_merge_skips (body : List Stmt) (info : RevisionInfo)
    (l : List String) (filepath : String)
    (alembic : String → SubprocessOutcome)
    (h : extractModule body = some info)
    (hd : info.down_revision = .tup l) (hl : 2 ≤ l.length) :
    info.is_merge = true
    ∧ generate_sql filepath (.text (.parsed body)) alembic
        = .ok (none, []) := by
  have hm : info.is_merge = true := by
    rw [extractModule_is_merge body info h, hd]
    rfl
  refine ⟨hm, ?_⟩
  unfold generate_sql
  rw [show extract_revision_info (.text (.parsed body))
    = .ok (extractModule body) from rfl, h]
  simp [hm]

/-- C2 witness: the merge migration, with a generator oracle that is not
even installed. -/
theorem claim_C2_merge_skips_witness :
    extractModule bodyMerge = some ⟨"m", .tup ["a", "b"], true⟩
    ∧ (⟨"m", .tup ["a", "b"], true⟩ : RevisionInfo).down_revision
        = .tup ["a", "b"]
    ∧ 2 ≤ (["a", "b"] : List String).length
    ∧ ((⟨"m", .tup ["a", "b"], true⟩ : RevisionInfo).is_merge = true
        ∧ generate_sql "f.py" (.text (.parsed bodyMerge))
            (fun _ => .notFound) = .ok (none, [])) :=
  ⟨by decide, by decide, by decide,
    claim_C2_merge_skips bodyMerge ⟨"m", .tup ["a", "b"], true⟩ ["a", "b"]
      "f.py" (fun _ => .notFound) (by decide) (by decide) (by decide)⟩

/-- C3. The claim says `is_merge` is true iff `down_revision` is a
sequence of length at least 2; the code sets it for any tuple, so the
one-element tuple of `bodyOneTuple` yields `is_merge = true` with a
length-1 predecessor sequence. -/
theorem claim_C3_counterexample :
    extractModule bodyOneTuple = some ⟨"r", .tup ["a"], true⟩
    ∧ ¬ 2 ≤ (["a"] : List String).length :=
  ⟨by decide, by decide⟩

/-- C3 (amended). For every extracted `RevisionInfo`, `is_merge` is true
iff `down_revision` is a tuple, of any length (including 0 and 1). -/
theorem claim_C3_is_merge_iff_tuple (body : List Stmt) (info : RevisionInfo)
    (h : extractModule body = some info) :
    info.is_merge = true ↔ info.down_revision.isTup = true := by
  rw [extractModule_is_merge body info h]

/-- C3 witness: the amended statement at the two-parent merge. -/
theorem claim_C3_is_merge_iff_tuple_witness :
    extractModule bodyMerge = some ⟨"m", .tup ["a", "b"], true⟩
    ∧ ((⟨"m", .tup ["a", "b"], true⟩ : RevisionInfo).is_merge = true
        ↔ (DownRev.tup ["a", "b"]).isTup = true) :=
  ⟨by decide,
    claim_C3_is_merge_iff_tuple bodyMerge ⟨"m", .tup ["a", "b"], true⟩
      (by decide)⟩

/-- C6. The claim says encoding errors, like grammar errors, give the
absent/empty result with no exception. The `try` blocks catch only
`SyntaxError`, so the `UnicodeDecodeError` raised while reading an
undecodable file propagates out of both functions. -/
theorem claim_C6_counterexample :
    extract_revision_info .decodeError = .error ()
    ∧ check_autocommit_blocks .decodeError = .error () :=
  ⟨rfl, rfl⟩

/-- C6 (amended). A grammar error yields the absent result from the
extractor and the empty sequence from the checker, with no exception; an
encoding (decode) error is not caught and the exception propagates from
both. -/
theorem claim_C6_unparseable_behavior :
    extract_revision_info (.text .syntaxError) = .ok none
    ∧ check_autocommit_blocks (.text .syntaxError) = .ok []
    ∧ extract_revision_info .decodeError = .error ()
    ∧ check_autocommit_blocks .decodeError = .error () :=
  ⟨rfl, rfl, rfl, rfl⟩

/-- C9. The claim says the value resolved for a multiply-assigned name is
the one from the last assignment, under standard overwrite semantics. In
`bodyRevTwice` the last assignment to `revision` is `revision = 5`, under
overwrite semantics `revision` would end up non-string (so no
`RevisionInfo` at all, as `specOverwriteRevision` computes), yet the
extractor keeps the earlier `'a'`. -/
theorem claim_C9_counterexample :
    extractModule bodyRevTwice = some ⟨"a", DownRev.pynone, false⟩
    ∧ lastRevAssignValue bodyRevTwice = some (.constant (.int 5))
    ∧ specOverwriteRevision bodyRevTwice = none :=
  ⟨by decide, rfl, rfl⟩

/-- C9 (amended). The extractor's resolved values follow
last-accepted-assignment-wins semantics: the result is built from the
value of the last assignment to each name whose right-hand side has an
accepted shape, and assignments of any other shape leave the previously
resolved value unchanged rather than overwriting it. -/
theorem claim_C9_last_accepted_wins (body : List Stmt) :
    extractModule body
      = match (body.filterMap acceptedRevValue).getLast? with
        | none => none
        | some r =>
            some ⟨r,
              ((body.filterMap acceptedDownValue).getLast?).getD
                DownRev.pynone,
              (((body.filterMap acceptedDownValue).getLast?).getD
                DownRev.pynone).isTup⟩ := by
  have h1 := foldl_extract_fst body (none, DownRev.pynone)
  have h2 := foldl_extract_snd body (none, DownRev.pynone)
  unfold extractModule
  rcases hf : body.foldl extractStep (none, DownRev.pynone) with ⟨r, d⟩
  rw [hf] at h1 h2
  dsimp only at h1 h2
  rcases hr : (body.filterMap acceptedRevValue).getLast? with _ | rv <;>
    rcases hd : (body.filterMap acceptedDownValue).getLast? with _ | dv <;>
      rw [hr] at h1 <;> rw [hd] at h2 <;>
        simp only [overrideOpt, overrideDown] at h1 h2 <;>
          subst h1 <;> subst h2 <;> simp

/-- A migration file whose generator run fails (`alembic` exits 1 with
stderr `boom`); `squawk` would be clean. -/
def fileGenFails : FileSpec :=
  ⟨"m.py", true, .text (.parsed bodyStd), fun _ => .completed 1 "" "boom",
    .completed 0 "" ""⟩

/-- A migration file for which the `alembic` executable is missing. -/
def fileGenMissing : FileSpec :=
  ⟨"a.py", true, .text (.parsed bodyStd), fun _ => .notFound,
    .completed 0 "" ""⟩

/-- A migration file that generates SQL on which `squawk` reports a
finding. -/
def fileSquawkFinds : FileSpec :=
  ⟨"b.py", true, .text (.parsed bodyStd),
    fun _ => .completed 0 "CREATE TABLE t (id int);" "",
    .completed 1 "squawk finding" ""⟩

theorem generate_sql_failure (f : FileSpec) (info : RevisionInfo)
    (rc : Int) (out err : String)
    (hex : extract_revision_info f.content = .ok (some info))
    (hm : info.is_merge = false)
    (hal : f.alembic (rangeToken info) = .completed rc out err)
    (hrc : rc ≠ 0) :
    generate_sql f.name f.content f.alembic
      = .ok (none, [alembicFailedMsg f.name err]) := by
  unfold generate_sql
  rw [hex]
  simp [hm, hal, hrc]

theorem generate_sql_missing (f : FileSpec) (info : RevisionInfo)
    (hex : extract_revision_info f.content = .ok (some info))
    (hm : info.is_merge = false)
    (hal : f.alembic (rangeToken info) = .notFound) :
    generate_sql f.name f.content f.alembic
      = .ok (none, [alembicNotFoundMsg]) := by
  unfold generate_sql
  rw [hex]
  simp [hm, hal]

/-- C4. The claim says a run in which the generator exits non-zero for
some file ends with a non-zero exit status. For the single-file run over
`fileGenFails` the failure is reported on stderr, yet `main` returns 0:
the loop `continue`s without touching `exit_code`. -/
theorem claim_C4_counterexample :
    mainRun true [fileGenFails]
      = .ok ⟨0, [], [alembicFailedMsg "m.py" "boom"]⟩ := rfl

/-- C4 (amended). When the generator runs but exits non-zero for a file,
that file is reported as failed with the diagnostic text (the tool's
stderr embedded in the message), and processing continues to the
remaining files — but the failure leaves the run's exit code unchanged,
so a run in which only generator failures occur exits 0. -/
theorem claim_C4_generator_failure (f : FileSpec) (rest : List FileSpec)
    (code : Int) (outs errs : List String) (info : RevisionInfo)
    (rc : Int) (out err : String)
    (hin : f.inMigrations = true)
    (hwarn : check_autocommit_blocks f.content = .ok [])
    (hex : extract_revision_info f.content = .ok (some info))
    (hm : info.is_merge = false)
    (hal : f.alembic (rangeToken info) = .completed rc out err)
    (hrc : rc ≠ 0) :
    mainLoop (f :: rest) code outs errs
      = mainLoop rest code outs (errs ++ [alembicFailedMsg f.name err]) := by
  rw [mainLoop]
  simp [hin, hwarn, generate_sql_failure f info rc out err hex hm hal hrc]

/-- C4 witness: the amended statement at `fileGenFails` alone. -/
theorem claim_C4_generator_failure_witness :
    fileGenFails.inMigrations = true
    ∧ check_autocommit_blocks fileGenFails.content = .ok []
    ∧ extract_revision_info fileGenFails.content
        = .ok (some ⟨"abc123", .str "def456", false⟩)
    ∧ (⟨"abc123", .str "def456", false⟩ : RevisionInfo).is_merge = false
    ∧ fileGenFails.alembic
        (rangeToken ⟨"abc123", .str "def456", false⟩)
        = .completed 1 "" "boom"
    ∧ (1 : Int) ≠ 0
    ∧ mainLoop [fileGenFails] 0 [] []
        = mainLoop [] 0 []
            ([] ++ [alembicFailedMsg fileGenFails.name "boom"]) :=
  ⟨rfl, rfl, rfl, rfl, rfl, by decide,
    claim_C4_generator_failure fileGenFails [] 0 [] []
      ⟨"abc123", .str "def456", false⟩ 1 "" "boom" rfl rfl rfl rfl rfl
      (by decide)⟩

/-- C5. The claim says a missing generator stops the run immediately. In
the two-file run below the generator is missing for the first file, yet
the second file is still fully processed (its `squawk` finding is
relayed and sets the exit code): the run does not stop. -/
theorem claim_C5_counterexample :
    mainRun true [fileGenMissing, fileSquawkFinds]
      = .ok ⟨1, ["squawk finding"], [alembicNotFoundMsg]⟩ := rfl

/-- C5 (amended). When the generator executable is missing,
`generate_sql` reports the dedicated "alembic not found" message —
distinct from every per-file generation-failure message — and returns
`None`; the run does not abort: the loop continues to the remaining
files with the exit code unchanged. -/
theorem claim_C5_missing_generator (f : FileSpec) (rest : List FileSpec)
    (code : Int) (outs errs : List String) (info : RevisionInfo)
    (err : String)
    (hin : f.inMigrations = true)
    (hwarn : check_autocommit_blocks f.content = .ok [])
    (hex : extract_revision_info f.content = .ok (some info))
    (hm : info.is_merge = false)
    (hal : f.alembic (rangeToken info) = .notFound) :
    mainLoop (f :: rest) code outs errs
      = mainLoop rest code outs (errs ++ [alembicNotFoundMsg])
    ∧ alembicFailedMsg f.name err ≠ alembicNotFoundMsg := by
  refine ⟨?_, alembicFailedMsg_ne_notFound f.name err⟩
  rw [mainLoop]
  simp [hin, hwarn, generate_sql_missing f info hex hm hal]

/-- C5 witness: the amended statement at `fileGenMissing` alone. -/
theorem claim_C5_missing_generator_witness :
    fileGenMissing.inMigrations = true
    ∧ check_autocommit_blocks fileGenMissing.content = .ok []
    ∧ extract_revision_info fileGenMissing.content
        = .ok (some ⟨"abc123", .str "def456", false⟩)
    ∧ (⟨"abc123", .str "def456", false⟩ : RevisionInfo).is_merge = false
    ∧ fileGenMissing.alembic
        (rangeToken ⟨"abc123", .str "def456", false⟩) = .notFound
    ∧ (mainLoop [fileGenMissing] 0 [] []
        = mainLoop [] 0 [] ([] ++ [alembicNotFoundMsg])
      ∧ alembicFailedMsg fileGenMissing.name "x" ≠ alembicNotFoundMsg) :=
  ⟨rfl, rfl, rfl, rfl, rfl,
    claim_C5_missing_generator fileGenMissing [] 0 [] []
      ⟨"abc123", .str "def456", false⟩ "x" rfl rfl rfl rfl rfl⟩

/-- The SQL literal of scenarios C and D. -/
def concurrentlySql : String := "CREATE INDEX CONCURRENTLY ix ON t (c)"

/-- C7. For every `op.execute` call whose first argument statically
resolves to a string containing `"concurrently"` case-insensitively,
nested under any stack of function definitions and `with` blocks: the
checker emits exactly the one warning at the call's line when no layer is
an `autocommit_block` `with`, and no warning when some layer is; and
visiting any `with` statement leaves the scope flag at its prior value on
exit. -/
theorem claim_C7_concurrently_warnings (ws : List Wrapper) (arg : Expr)
    (s : String) (n : Nat) (st : CheckerState) (items : List Expr)
    (body : List Stmt)
    (hres : ResolvesTo arg s)
    (hconc : containsSub "concurrently" (pyLower s) = true) :
    checkModule [nestStmt ws (.exprStmt (.call (.attribute (.name "op")
        "execute") [arg] [] n))]
      = (if hasAuto ws then [] else [n])
    ∧ (visitStmt st (.withStmt items body)).inAutocommit
        = st.inAutocommit := by
  refine ⟨?_, visitStmt_flag st (.withStmt items body)⟩
  have hnest := visitStmt_nest_cond
    (.exprStmt (.call (.attribute (.name "op") "execute") [arg] [] n)) n
    (fun st' => visitStmt_opExecuteStmt arg s n st' hres hconc)
    ws ⟨[], false⟩
  unfold checkModule
  rw [visitStmtList, hnest, visitStmtList]
  simp

/-- C7 witness: scenario C inside a `def upgrade():`, plus the flag
restoration across an `autocommit_block` `with`. -/
theorem claim_C7_concurrently_warnings_witness :
    ResolvesTo (.constant (.str concurrentlySql)) concurrentlySql
    ∧ containsSub "concurrently" (pyLower concurrentlySql) = true
    ∧ (checkModule [nestStmt [.fnDef] (.exprStmt (.call
          (.attribute (.name "op") "execute")
          [.constant (.str concurrentlySql)] [] 5))]
        = (if hasAuto [.fnDef] then [] else [5])
      ∧ (visitStmt ⟨[], false⟩ (.withStmt [autoItem] [])).inAutocommit
          = (⟨[], false⟩ : CheckerState).inAutocommit) :=
  ⟨ResolvesTo.const concurrentlySql, by decide,
    claim_C7_concurrently_warnings [.fnDef]
      (.constant (.str concurrentlySql)) concurrentlySql 5 ⟨[], false⟩
      [autoItem] [] (ResolvesTo.const concurrentlySql) (by decide)⟩

/-- Visiting a function expression that is not an `op.` attribute (a bare
name or an attribute on another bare name) changes nothing. -/
theorem visitExpr_funcNotOp (fe : Expr) (h : funcNotOp fe = true)
    (st : CheckerState) : visitExpr st fe = st := by
  match fe with
  | .name id => rfl
  | .attribute (.name r) a => rw [visitExpr, visitExpr]

/-- C8. A call argument that is a variable reference, an interpolated
string over atomic pieces, a concatenation of atomic pieces, or a
non-string literal yields nothing from `_extract_string`, and an
`op.execute` call carrying it is never flagged, at any nesting depth. -/
theorem claim_C8_dynamic_sql_never_flagged (ws : List Wrapper) (arg : Expr)
    (n : Nat) (h : nonExtractableArg arg = true) :
    extract_string arg = none
    ∧ checkModule [nestStmt ws (.exprStmt (.call (.attribute (.name "op")
        "execute") [arg] [] n))] = [] := by
  refine ⟨extract_string_nonExtractable arg h, ?_⟩
  have hinner : ∀ st, visitStmt st (.exprStmt (.call
      (.attribute (.name "op") "execute") [arg] [] n)) = st := by
    intro st
    have hcw : callWarnings (.attribute (.name "op") "execute") [arg] []
        n st.inAutocommit = [] := by
      have hc : execWarnCond [arg] st.inAutocommit = false := by
        rw [execWarnCond, extract_string_nonExtractable arg h]
      rw [callWarnings]
      simp +decide [hc]
    rw [visitStmt, visitExpr, hcw]
    simp only [List.append_nil]
    rw [visitExpr, visitExpr]
    rw [visitExprList, visitExpr_nonExtractable arg h, visitExprList,
      visitKeywordList]
  unfold checkModule
  rw [visitStmtList, visitStmt_nest_id _ hinner ws ⟨[], false⟩,
    visitStmtList]

/-- C8 witness: `op.execute(sql_text)` on a variable reference, at the
top level. -/
theorem claim_C8_dynamic_sql_never_flagged_witness :
    nonExtractableArg (.name "sql_text") = true
    ∧ (extract_string (.name "sql_text") = none
      ∧ checkModule [nestStmt [] (.exprStmt (.call
          (.attribute (.name "op") "execute") [.name "sql_text"] [] 7))]
        = []) :=
  ⟨by decide,
    claim_C8_dynamic_sql_never_flagged [] (.name "sql_text") 7 (by decide)⟩

/-- C10. The checker flags only calls whose function is an attribute
access on the bare name `op`: a call whose function is a bare name or an
attribute on any other bare name is never flagged, whatever its (atomic)
arguments and keyword arguments and at any nesting depth. -/
theorem claim_C10_only_op_receiver (ws : List Wrapper) (fe : Expr)
    (args : List Expr) (kws : List Keyword) (n : Nat)
    (hf : funcNotOp fe = true)
    (ha : args.all atomExpr = true)
    (hk : (kws.all fun kw => atomExpr kw.value) = true) :
    checkModule [nestStmt ws (.exprStmt (.call fe args kws n))] = [] := by
  have hinner : ∀ st, visitStmt st (.exprStmt (.call fe args kws n))
      = st := by
    intro st
    rw [visitStmt, visitExpr, callWarnings_notOp fe args kws n _ hf]
    simp only [List.append_nil]
    rw [visitExpr_funcNotOp fe hf, visitExprList_atoms args ha,
      visitKeywordList_atoms kws hk]
  unfold checkModule
  rw [visitStmtList, visitStmt_nest_id _ hinner ws ⟨[], false⟩,
    visitStmtList]

/-- C10 witness: `connection.execute("CREATE INDEX CONCURRENTLY ...")`
and even a `postgresql_concurrently=True` keyword, outside any
autocommit block, produce no warning. -/
theorem claim_C10_only_op_receiver_witness :
    funcNotOp (.attribute (.name "connection") "execute") = true
    ∧ ([.constant (.str concurrentlySql)] : List Expr).all atomExpr = true
    ∧ (([.mk (some "postgresql_concurrently") (.constant (.bool true))] :
          List Keyword).all fun kw => atomExpr kw.value) = true
    ∧ checkModule [nestStmt [] (.exprStmt (.call
        (.attribute (.name "connection") "execute")
        [.constant (.str concurrentlySql)]
        [.mk (some "postgresql_concurrently") (.constant (.bool true))]
        3))] = [] :=
  ⟨by decide, by decide, by decide,
    claim_C10_only_op_receiver [] (.attribute (.name "connection")
      "execute") [.constant (.str concurrentlySql)]
      [.mk (some "postgresql_concurrently") (.constant (.bool true))] 3
      (by decide) (by decide) (by decide)⟩
